import Mathlib

/-!
Verification of the FilmMatch backend: a shallow embedding of the match
service (`src/backend/src/services/match.service.ts`) and of the user
validator (`src/backend/src/validators/user.validator.ts`).

The database is modelled as explicit lists of rows (movies, user matches,
user preferences); each Prisma call becomes a pure function over that
state, and every service function that can throw returns the (possibly
updated) state together with an `Except AppError` result, mirroring the
fact that a throw happens before any write.  `Math.random()` is modelled
as an arbitrary stream of natural-number draws `rand : Nat → Nat`; the
draw at loop index `i` is reduced `% (i+1)`, exactly the range produced
by `Math.floor(Math.random() * (i + 1))`.
-/

namespace FilmMatch

/-- The Prisma `MatchStatus` enum: like / dislike / superlike. -/
inductive MatchStatus
  | like
  | dislike
  | superlike
deriving DecidableEq

/-- A `Movie` row; the `categories` relation (MovieCategory ⋈ Category) is
flattened to the list of category names reachable from the movie. -/
structure Movie where
  id : Nat
  categories : List String
deriving DecidableEq

/-- A `UserMatch` row: one user's decision on one movie.  The Prisma schema
has the composite unique key `userId_movieId` on these two columns. -/
structure UserMatch where
  userId : Nat
  movieId : Nat
  status : MatchStatus
deriving DecidableEq

/-- A `UserPreferences` row; `favoriteGenres` is a nullable string column
holding a JSON-encoded array of genre names. -/
structure UserPreferences where
  userId : Nat
  favoriteGenres : Option String
deriving DecidableEq

/-- The database state visible to the match service. -/
structure DB where
  movies : List Movie
  userMatches : List UserMatch
  preferences : List UserPreferences
deriving DecidableEq

/-- `class AppError extends Error { constructor(message, statusCode) }`. -/
structure AppError where
  message : String
  statusCode : Nat
deriving DecidableEq

/-- The `userId_movieId` unique-key test used by every `findUnique` /
`upsert` / `delete` call on `userMatch`. -/
def matchKeyIs (userId movieId : Nat) (r : UserMatch) : Bool :=
  r.userId == userId && r.movieId == movieId

/-- `upsertMatch(userId, movieId, status)`: verify the movie exists (else
throw `AppError('Movie not found', 404)`), then `prisma.userMatch.upsert`
on the `userId_movieId` key: update the existing row's status in place,
or create a new row.  The state is threaded explicitly; the throw happens
before any write, so the error branch returns the state unchanged. -/
def upsertMatch (db : DB) (userId movieId : Nat) (status : MatchStatus) :
    DB × Except AppError UserMatch :=
  match db.movies.find? (fun mv => mv.id == movieId) with
  | none => (db, Except.error ⟨"Movie not found", 404⟩)
  | some _ =>
    match db.userMatches.find? (matchKeyIs userId movieId) with
    | some _ =>
        ({ db with
            userMatches := db.userMatches.map (fun r =>
              if matchKeyIs userId movieId r then { r with status := status } else r) },
         Except.ok ⟨userId, movieId, status⟩)
    | none =>
        ({ db with userMatches := db.userMatches ++ [⟨userId, movieId, status⟩] },
         Except.ok ⟨userId, movieId, status⟩)

/-- `getMatchStatus(userId, movieId)`: `prisma.userMatch.findUnique` on the
`userId_movieId` key; `null` becomes `none`. -/
def getMatchStatus (db : DB) (userId movieId : Nat) : Option UserMatch :=
  db.userMatches.find? (matchKeyIs userId movieId)

/-- `deleteMatch(userId, movieId)`: `findUnique` on the key, throw
`AppError('Match not found', 404)` when absent, else `delete` the row.
Under the unique key the rows with this key are exactly the one found. -/
def deleteMatch (db : DB) (userId movieId : Nat) :
    DB × Except AppError UserMatch :=
  match db.userMatches.find? (matchKeyIs userId movieId) with
  | none => (db, Except.error ⟨"Match not found", 404⟩)
  | some r =>
      ({ db with userMatches := db.userMatches.filter (fun q => !matchKeyIs userId movieId q) },
       Except.ok r)

/-- One iteration of the Fisher-Yates loop body
`[result[i], result[j]] = [result[j], result[i]]`: swap positions `i` and
`j` (both are always in bounds when called from the loop). -/
def listSwap {α : Type} (l : List α) (i j : Nat) : List α :=
  match l[i]?, l[j]? with
  | some x, some y => (l.set i y).set j x
  | _, _ => l

/-- The loop `for (let i = result.length - 1; i > 0; i--)` of `shuffle`,
counting `i` down; `rand i % (i + 1)` is the draw
`Math.floor(Math.random() * (i + 1))`. -/
def shuffleAux {α : Type} (rand : Nat → Nat) : List α → Nat → List α
  | result, 0 => result
  | result, i + 1 => shuffleAux rand (listSwap result (i + 1) (rand (i + 1) % (i + 2))) i

/-- `shuffle(items)`: Fisher-Yates over a copy `[...items]` of the input,
driven by the stream of random draws. -/
def shuffle {α : Type} (rand : Nat → Nat) (items : List α) : List α :=
  shuffleAux rand items (items.length - 1)

/-- Is `c` JSON whitespace? -/
def isWsChar (c : Char) : Bool :=
  c == ' ' || c == '\t' || c == '\n' || c == '\r'

/-- Drop leading JSON whitespace. -/
def skipWs : List Char → List Char
  | [] => []
  | c :: cs => if isWsChar c then skipWs cs else c :: cs

/-- Is the whole rest whitespace? -/
def isAllWs : List Char → Bool
  | [] => true
  | c :: cs => isWsChar c && isAllWs cs

/-- Is `c` a hexadecimal digit? -/
def isHexDigitCh (c : Char) : Bool :=
  c.isDigit || ('a' ≤ c && c ≤ 'f') || ('A' ≤ c && c ≤ 'F')

/-- Value of a hexadecimal digit. -/
def hexDigitVal (c : Char) : Nat :=
  if c.isDigit then c.toNat - '0'.toNat
  else if 'a' ≤ c && c ≤ 'f' then c.toNat - 'a'.toNat + 10
  else c.toNat - 'A'.toNat + 10

/-- Read the four hex digits of a `\uXXXX` escape. -/
def readHex4 : List Char → Option (Nat × List Char)
  | a :: b :: c :: d :: rest =>
    if isHexDigitCh a && isHexDigitCh b && isHexDigitCh c && isHexDigitCh d then
      some (((hexDigitVal a * 16 + hexDigitVal b) * 16 + hexDigitVal c) * 16
        + hexDigitVal d, rest)
    else none
  | _ => none

/-- `JSON.parse` keeps a lone surrogate from a `\uXXXX` escape in the
string; a Lean `Char` is a Unicode scalar and cannot hold one, so a lone
surrogate decodes to U+FFFD (parse success or failure is unaffected). -/
def surrogateChar : Char := '�'

/-- Read a JSON string body (the opening quote already consumed) up to the
closing quote: raw control characters below U+0020 are rejected, the
escapes `\" \\ \/ \b \f \n \r \t \uXXXX` are decoded, and a high/low
`\uXXXX` surrogate pair yields the encoded code point.  `fuel` only bounds
the recursion (each step consumes at least one character). -/
def readStringBody : Nat → List Char → List Char → Option (String × List Char)
  | 0, _, _ => none
  | fuel + 1, acc, cs =>
    match cs with
    | '"' :: rest => some (String.mk acc.reverse, rest)
    | '\\' :: c :: rest =>
      if c == '"' then readStringBody fuel ('"' :: acc) rest
      else if c == '\\' then readStringBody fuel ('\\' :: acc) rest
      else if c == '/' then readStringBody fuel ('/' :: acc) rest
      else if c == 'b' then readStringBody fuel ('\x08' :: acc) rest
      else if c == 'f' then readStringBody fuel ('\x0C' :: acc) rest
      else if c == 'n' then readStringBody fuel ('\n' :: acc) rest
      else if c == 'r' then readStringBody fuel ('\r' :: acc) rest
      else if c == 't' then readStringBody fuel ('\t' :: acc) rest
      else if c == 'u' then
        match readHex4 rest with
        | none => none
        | some (n, rest') =>
          if 0xD800 ≤ n && n ≤ 0xDBFF then
            match rest' with
            | '\\' :: 'u' :: rest'' =>
              match readHex4 rest'' with
              | some (m, rest3) =>
                if 0xDC00 ≤ m && m ≤ 0xDFFF then
                  readStringBody fuel
                    (Char.ofNat (0x10000 + (n - 0xD800) * 0x400 + (m - 0xDC00)) :: acc)
                    rest3
                else readStringBody fuel (surrogateChar :: acc) rest'
              | none => readStringBody fuel (surrogateChar :: acc) rest'
            | _ => readStringBody fuel (surrogateChar :: acc) rest'
          else if 0xDC00 ≤ n && n ≤ 0xDFFF then
            readStringBody fuel (surrogateChar :: acc) rest'
          else
            readStringBody fuel (Char.ofNat n :: acc) rest'
      else none
    | c :: rest =>
      if c == '\\' then none
      else if c.toNat < 0x20 then none
      else readStringBody fuel (c :: acc) rest
    | [] => none

/-- Drop leading decimal digits. -/
def skipDigits : List Char → List Char
  | [] => []
  | c :: cs => if c.isDigit then skipDigits cs else c :: cs

/-- Read the optional exponent of a JSON number. -/
def readExpPart (cs : List Char) : Option (List Char) :=
  match cs with
  | c :: r =>
    if c == 'e' || c == 'E' then
      match (match r with
             | s :: r' => if s == '+' || s == '-' then r' else r
             | [] => r) with
      | d :: r2 => if d.isDigit then some (skipDigits r2) else none
      | [] => none
    else some cs
  | [] => some cs

/-- Read the optional fraction and exponent of a JSON number. -/
def readFrac (cs : List Char) : Option (List Char) :=
  match cs with
  | '.' :: r =>
    match r with
    | c :: r' => if c.isDigit then readExpPart (skipDigits r') else none
    | [] => none
  | _ => readExpPart cs

/-- Read a JSON number token (`-?(0|[1-9][0-9]*)(\.[0-9]+)?([eE][+-]?[0-9]+)?`),
returning the remaining input; the numeric value is irrelevant here. -/
def readNumber (cs : List Char) : Option (List Char) :=
  match (match cs with
         | '-' :: r => r
         | _ => cs) with
  | '0' :: r => readFrac r
  | c :: r => if c.isDigit then readFrac (skipDigits r) else none
  | [] => none

/-- The shape of a parsed JSON value; object members and numeric values
are irrelevant to the service, only the value's kind and array/string
content matter. -/
inductive JsonVal
  | jnull
  | jbool (b : Bool)
  | jnum
  | jstr (s : String)
  | jarr (xs : List JsonVal)
  | jobj

mutual

/-- Parse one JSON value (after optional whitespace), returning it and the
remaining input; `fuel` only bounds the recursion (at most two units per
consumed character). -/
def parseJsonVal : Nat → List Char → Option (JsonVal × List Char)
  | 0, _ => none
  | fuel + 1, cs =>
    match skipWs cs with
    | '"' :: rest =>
      match readStringBody (rest.length + 1) [] rest with
      | some (s, rest') => some (.jstr s, rest')
      | none => none
    | '[' :: rest =>
      match skipWs rest with
      | ']' :: r => some (.jarr [], r)
      | _ =>
        match parseArrItems fuel rest with
        | some (xs, r) => some (.jarr xs, r)
        | none => none
    | '{' :: rest =>
      match skipWs rest with
      | '}' :: r => some (.jobj, r)
      | _ =>
        match parseObjItems fuel rest with
        | some r => some (.jobj, r)
        | none => none
    | 't' :: 'r' :: 'u' :: 'e' :: rest => some (.jbool true, rest)
    | 'f' :: 'a' :: 'l' :: 's' :: 'e' :: rest => some (.jbool false, rest)
    | 'n' :: 'u' :: 'l' :: 'l' :: rest => some (.jnull, rest)
    | c :: rest =>
      if c == '-' || c.isDigit then
        match readNumber (c :: rest) with
        | some r => some (.jnum, r)
        | none => none
      else none
    | [] => none

/-- Parse the remaining comma-separated items of a non-empty JSON array,
up to and including the closing bracket. -/
def parseArrItems : Nat → List Char → Option (List JsonVal × List Char)
  | 0, _ => none
  | fuel + 1, cs =>
    match parseJsonVal fuel cs with
    | none => none
    | some (v, rest) =>
      match skipWs rest with
      | ',' :: r =>
        match parseArrItems fuel r with
        | some (vs, r') => some (v :: vs, r')
        | none => none
      | ']' :: r => some ([v], r)
      | _ => none

/-- Parse the remaining `"key": value` members of a non-empty JSON object,
up to and including the closing brace, returning the remaining input. -/
def parseObjItems : Nat → List Char → Option (List Char)
  | 0, _ => none
  | fuel + 1, cs =>
    match skipWs cs with
    | '"' :: r =>
      match readStringBody (r.length + 1) [] r with
      | none => none
      | some (_, r1) =>
        match skipWs r1 with
        | ':' :: r2 =>
          match parseJsonVal fuel r2 with
          | none => none
          | some (_, r3) =>
            match skipWs r3 with
            | ',' :: r4 => parseObjItems fuel r4
            | '}' :: r4 => some r4
            | _ => none
        | _ => none
    | _ => none

end

/-- `JSON.parse(s)`: `some` the parsed value, `none` exactly when parsing
throws a `SyntaxError` (the only exception `JSON.parse` raises). -/
def jsonParse (s : String) : Option JsonVal :=
  match parseJsonVal (2 * s.length + 2) s.data with
  | some (v, rest) => if isAllWs rest then some v else none
  | none => none

/-- The string carried by a JSON string value. -/
def asString : JsonVal → Option String
  | .jstr s => some s
  | _ => none

/-- `some` the element strings when the value is an array of strings. -/
def decodeStringArray : JsonVal → Option (List String)
  | .jarr xs => xs.mapM asString
  | _ => none

/-- The stored `favoriteGenres` text decoded as a genre-name list: `some`
exactly when `JSON.parse` succeeds and yields an array of strings. -/
def parseGenresJson (s : String) : Option (List String) :=
  (jsonParse s).bind decodeStringArray

/-- Lines 122-134 of the service: load the user's preferences row, and
decode `favoriteGenres` into a list of genre names; an absent row, a null
or empty (JS-falsy) column, a caught `SyntaxError`, or a parse to
anything other than a string array all yield `[]`.  This is the genre
list of every run of `getDiscoverMovies` that does not crash;
`genresResult` below also models the crash paths. -/
def favoriteGenresOf (db : DB) (userId : Nat) : List String :=
  match db.preferences.find? (fun p => p.userId == userId) with
  | none => []
  | some p =>
    match p.favoriteGenres with
    | none => []
    | some s => if s == "" then [] else (parseGenresJson s).getD []

/-- The `matches: { none: { userId } }` exclusion: does `userId` already
have a match row for this movie? -/
def excludedForUser (db : DB) (userId : Nat) (mv : Movie) : Bool :=
  db.userMatches.any (fun r => r.userId == userId && r.movieId == mv.id)

/-- Movies with no match row for the user (the discover `whereClause`
before any genre filter is added). -/
def unmatchedMovies (db : DB) (userId : Nat) : List Movie :=
  db.movies.filter (fun mv => !excludedForUser db userId mv)

/-- The full discover `whereClause`: exclude matched movies and, when the
user has favorite genres, keep only movies with
`categories: { some: { category: { name: { in: favoriteGenres } } } }`. -/
def discoverBase (db : DB) (userId : Nat) : List Movie :=
  db.movies.filter (fun mv =>
    !excludedForUser db userId mv &&
    ((favoriteGenresOf db userId).isEmpty ||
      mv.categories.any (fun c => (favoriteGenresOf db userId).contains c)))

/-- The `prisma.movie.findMany` call with `take: limit * 2` (over-fetch
for shuffle variety; no `orderBy`, so rows come in table order). -/
def discoverCandidates (db : DB) (userId limit : Nat) : List Movie :=
  (discoverBase db userId).take (limit * 2)

/-- `getDiscoverMovies(userId, limit)`: fetch up to `limit * 2` candidates
not yet matched by the user (genre-filtered when preferences say so),
shuffle them in memory, and return the first `limit`:
`return shuffle(candidates).slice(0, limit)`. -/
def getDiscoverMovies (db : DB) (userId limit : Nat) (rand : Nat → Nat) : List Movie :=
  (shuffle rand (discoverCandidates db userId limit)).take limit

/-- Lines 122-145 of the service with their JS dynamics made explicit.
After the guarded `try { favoriteGenres = JSON.parse(...) } catch`,
`favoriteGenres` holds whatever `JSON.parse` returned, and the unguarded
`if (favoriteGenres.length > 0)` block runs on it:
a parsed `null` throws an uncaught `TypeError` reading `.length`;
a parsed non-empty string has `.length > 0` and then throws an uncaught
`TypeError` at `favoriteGenres.join(', ')`;
numbers, booleans and objects have `undefined` length, so the filter is
skipped; a non-empty array with a non-string element passes `.join` but
makes `prisma.movie.findMany` throw a validation error on `in:`;
only an array of strings yields a genre filter.  A caught `SyntaxError`
leaves the initial `[]`. -/
def genresResult (db : DB) (userId : Nat) : Except String (List String) :=
  match db.preferences.find? (fun p => p.userId == userId) with
  | none => .ok []
  | some p =>
    match p.favoriteGenres with
    | none => .ok []
    | some s =>
      if s == "" then .ok []
      else
        match jsonParse s with
        | none => .ok []
        | some .jnull =>
            .error "TypeError: Cannot read properties of null (reading 'length')"
        | some (.jstr str) =>
            if str.length == 0 then .ok []
            else .error "TypeError: favoriteGenres.join is not a function"
        | some (.jarr xs) =>
            if xs.isEmpty then .ok []
            else
              match xs.mapM asString with
              | some L => .ok L
              | none => .error "PrismaClientValidationError: in expects String values"
        | some _ => .ok []

/-- `getDiscoverMovies(userId, limit)` with its crash paths: the feed when
the genre decoding does not throw, the uncaught exception otherwise. -/
def getDiscoverMoviesE (db : DB) (userId limit : Nat) (rand : Nat → Nat) :
    Except String (List Movie) :=
  (genresResult db userId).map (fun genres =>
    (shuffle rand ((db.movies.filter (fun mv =>
        !excludedForUser db userId mv &&
        (genres.isEmpty || mv.categories.any (fun c => genres.contains c)))).take
      (limit * 2))).take limit)

/-- A single step of the match-service API on the database: one successful
or failing `upsertMatch` or `deleteMatch` call (failures leave the state
unchanged, so the resulting state is always the first component). -/
inductive Step : DB → DB → Prop
  | upsert (userId movieId : Nat) (s : MatchStatus) (db : DB) :
      Step db (upsertMatch db userId movieId s).1
  | del (userId movieId : Nat) (db : DB) :
      Step db (deleteMatch db userId movieId).1

/-- States reachable from `init` by any sequence of match operations. -/
inductive Reachable (init : DB) : DB → Prop
  | refl : Reachable init init
  | step {db db' : DB} : Reachable init db → Step db db' → Reachable init db'

/-- The `userId_movieId` keys of all match rows. -/
def matchKeys (db : DB) : List (Nat × Nat) :=
  db.userMatches.map (fun r => (r.userId, r.movieId))

/-- The `@@unique([userId, movieId])` constraint: at most one match row
per (user, movie) pair. -/
def UniqueMatches (db : DB) : Prop :=
  (matchKeys db).Nodup

/-- A JSON field of a request body: absent, `null`, or a string. -/
inductive JField
  | missing
  | nullv
  | strv (s : String)
deriving DecidableEq

/-- The request body seen by `updateUserSchema` (unknown keys are
stripped by zod and irrelevant here). -/
structure UpdateUserInput where
  username : JField
  nickname : JField
  bio : JField
  profilePicture : JField
  twitterUrl : JField
  instagramUrl : JField
deriving DecidableEq

/-- `z.string().min(lo).max(hi).optional()`: absent passes through, null is
rejected (not nullable), a string passes iff its length is in range. -/
def zMinMax (lo hi : Nat) : JField → Option JField
  | .missing => some .missing
  | .nullv => none
  | .strv s => if lo ≤ s.length && s.length ≤ hi then some (.strv s) else none

/-- `bio: z.string().max(500).optional().nullable()`. -/
def zBio : JField → Option JField
  | .missing => some .missing
  | .nullv => some .nullv
  | .strv s => if s.length ≤ 500 then some (.strv s) else none

/-- `profilePicture: z.string().optional().nullable()`: anything passes. -/
def zProfilePicture : JField → Option JField
  | f => some f

/-- `z.union([z.string().url(), z.literal('').transform(() => null),
z.null()]).optional()`; the union tries its branches in order.  `validUrl`
stands for zod's `.url()` check (`new URL(value)` succeeding). -/
def zUrlField (validUrl : String → Bool) : JField → Option JField
  | .missing => some .missing
  | .nullv => some .nullv
  | .strv s =>
      if validUrl s then some (.strv s)
      else if s == "" then some .nullv
      else none

/-- `updateUserSchema.parse`: every field must validate; the result carries
the transformed fields (`''` in a URL field became `null`). -/
def updateUserSchema (validUrl : String → Bool) (i : UpdateUserInput) :
    Option UpdateUserInput :=
  (zMinMax 3 50 i.username).bind fun u =>
  (zMinMax 1 50 i.nickname).bind fun n =>
  (zBio i.bio).bind fun b =>
  (zProfilePicture i.profilePicture).bind fun pp =>
  (zUrlField validUrl i.twitterUrl).bind fun tw =>
  (zUrlField validUrl i.instagramUrl).map fun ig =>
  ⟨u, n, b, pp, tw, ig⟩

/-- A concrete database used by the witness theorems: three movies, user 7
already matched movie 2, and user 7 prefers the `Action` genre. -/
def dbEx : DB :=
  { movies := [⟨1, ["Action"]⟩, ⟨2, ["Drama"]⟩, ⟨3, ["Action", "Comedy"]⟩],
    userMatches := [⟨7, 2, .like⟩],
    preferences := [⟨7, some "[\"Action\"]"⟩] }

/-- A database with two movies and no match rows yet. -/
def dbEx0 : DB :=
  { movies := [⟨1, ["Action"]⟩, ⟨2, ["Drama"]⟩],
    userMatches := [],
    preferences := [] }

/-- A database whose stored `favoriteGenres` is not valid JSON. -/
def dbBadPrefs : DB :=
  { movies := [⟨1, ["Action"]⟩, ⟨2, ["Drama"]⟩],
    userMatches := [],
    preferences := [⟨7, some "not json"⟩] }

/-- A constant stream of random draws, for the witness theorems. -/
def randZero : Nat → Nat := fun _ => 0

/-- A concrete URL check for the witness theorems: accept one fixed URL. -/
def urlVEx : String → Bool := fun s => s == "https://x.com/a"

/-- A concrete update-user body: empty-string twitterUrl, null instagram. -/
def inputEx : UpdateUserInput :=
  ⟨.strv "bob", .strv "b", .nullv, .missing, .strv "", .nullv⟩

/-- Writing `a` over the element found at index `k` and consing that
element in front permutes consing `a` in front. -/
theorem set_cons_perm {α : Type} (a : α) :
    ∀ (t : List α) (k : Nat) (x : α), t[k]? = some x →
      List.Perm (x :: t.set k a) (a :: t) := by
  intro t
  induction t with
  | nil => intro k x h; simp at h
  | cons b t' ih =>
    intro k x h
    cases k with
    | zero =>
      simp only [List.getElem?_cons_zero, Option.some.injEq] at h
      subst h
      exact List.Perm.swap a b t'
    | succ k =>
      simp only [List.getElem?_cons_succ] at h
      have h1 : List.Perm (x :: b :: t'.set k a) (b :: x :: t'.set k a) :=
        List.Perm.swap b x (t'.set k a)
      have h2 : List.Perm (b :: x :: t'.set k a) (b :: (a :: t')) :=
        List.Perm.cons b (ih k x h)
      have h3 : List.Perm (b :: a :: t') (a :: b :: t') := List.Perm.swap a b t'
      exact (h1.trans h2).trans h3

/-- One Fisher-Yates swap permutes the list. -/
theorem listSwap_perm {α : Type} :
    ∀ (l : List α) (i j : Nat), List.Perm (listSwap l i j) l := by
  intro l
  induction l with
  | nil => intro i j; simp [listSwap]
  | cons a t ih =>
    intro i j
    cases i with
    | zero =>
      cases j with
      | zero => simp [listSwap]
      | succ k =>
        cases hy : t[k]? with
        | none => simp [listSwap, hy]
        | some y => simpa [listSwap, hy] using set_cons_perm a t k y hy
    | succ m =>
      cases hx : t[m]? with
      | none =>
        cases j <;> simp [listSwap, hx]
      | some x =>
        cases j with
        | zero => simpa [listSwap, hx] using set_cons_perm a t m x hx
        | succ k =>
          cases hy : t[k]? with
          | none => simp [listSwap, hx, hy]
          | some y =>
            have h := ih m k
            simp only [listSwap, hx, hy] at h
            simpa [listSwap, hx, hy] using List.Perm.cons a h

/-- Every pass of the Fisher-Yates loop permutes the list. -/
theorem shuffleAux_perm {α : Type} (rand : Nat → Nat) :
    ∀ (n : Nat) (l : List α), List.Perm (shuffleAux rand l n) l := by
  intro n
  induction n with
  | zero => intro l; exact List.Perm.refl l
  | succ i ih =>
    intro l
    exact (ih _).trans (listSwap_perm l (i + 1) (rand (i + 1) % (i + 2)))

/-- `shuffle` returns a permutation of its input. -/
theorem shuffle_perm {α : Type} (rand : Nat → Nat) (items : List α) :
    List.Perm (shuffle rand items) items :=
  shuffleAux_perm rand (items.length - 1) items

/-- Every discover result is one of the fetched candidates. -/
theorem mem_candidates_of_mem_discover {db : DB} {u limit : Nat}
    {rand : Nat → Nat} {mv : Movie}
    (h : mv ∈ getDiscoverMovies db u limit rand) :
    mv ∈ discoverCandidates db u limit := by
  have h1 : mv ∈ shuffle rand (discoverCandidates db u limit) :=
    (List.take_sublist limit _).subset h
  exact (shuffle_perm rand _).subset h1

/-- Every fetched candidate satisfies the discover where-clause. -/
theorem mem_base_of_mem_candidates {db : DB} {u limit : Nat} {mv : Movie}
    (h : mv ∈ discoverCandidates db u limit) : mv ∈ discoverBase db u :=
  (List.take_sublist (limit * 2) _).subset h

/-- Movies passing the where-clause have no match row for the user. -/
theorem not_excluded_of_mem_base {db : DB} {u : Nat} {mv : Movie}
    (h : mv ∈ discoverBase db u) : excludedForUser db u mv = false := by
  unfold discoverBase at h
  have h2 := (List.mem_filter.mp h).2
  simp only [Bool.and_eq_true, Bool.not_eq_true'] at h2
  exact h2.1

/-- A successful upsert leaves a match row for the pair in the new state. -/
theorem upsertMatch_ok_has_row (db : DB) (u m : Nat) (s : MatchStatus)
    (h : ∃ row, (upsertMatch db u m s).2 = Except.ok row) :
    ∃ r ∈ (upsertMatch db u m s).1.userMatches, r.userId = u ∧ r.movieId = m := by
  cases hmov : db.movies.find? (fun mv => mv.id == m) with
  | none =>
    obtain ⟨row, hrow⟩ := h
    rw [upsertMatch.eq_def, hmov] at hrow
    simp at hrow
  | some mv0 =>
    cases hmat : db.userMatches.find? (matchKeyIs u m) with
    | some r0 =>
      have hkey : matchKeyIs u m r0 = true := List.find?_some hmat
      have hmem : r0 ∈ db.userMatches := List.mem_of_find?_eq_some hmat
      simp only [upsertMatch, hmov, hmat]
      refine ⟨{ r0 with status := s }, ?_, ?_⟩
      · have : (fun r => if matchKeyIs u m r then { r with status := s } else r) r0
            = { r0 with status := s } := by simp [hkey]
        exact this ▸ List.mem_map_of_mem _ hmem
      · have hk := hkey
        simp only [matchKeyIs, Bool.and_eq_true, beq_iff_eq] at hk
        exact ⟨hk.1, hk.2⟩
    | none =>
      simp only [upsertMatch, hmov, hmat]
      exact ⟨⟨u, m, s⟩, by simp, rfl, rfl⟩

/-- When the user's favorite-genre list is empty, the discover pipeline
runs with no genre filter: the candidates are all not-yet-matched movies. -/
theorem discover_no_filter (db : DB) (u limit : Nat) (rand : Nat → Nat)
    (hfav : favoriteGenresOf db u = []) :
    getDiscoverMovies db u limit rand
      = (shuffle rand ((unmatchedMovies db u).take (limit * 2))).take limit := by
  have hbase : discoverBase db u = unmatchedMovies db u := by
    unfold discoverBase unmatchedMovies
    apply List.filter_congr
    intro mv _
    rw [hfav]
    simp
  unfold getDiscoverMovies discoverCandidates
  rw [hbase]

/-- A decoded string array comes from a `jarr` of string values. -/
theorem decodeStringArray_eq_some {v : JsonVal} {L : List String}
    (h : decodeStringArray v = some L) :
    ∃ xs, v = .jarr xs ∧ xs.mapM asString = some L := by
  cases v with
  | jarr xs => exact ⟨xs, rfl, by simpa [decodeStringArray] using h⟩
  | jnull => simp [decodeStringArray] at h
  | jbool b => simp [decodeStringArray] at h
  | jnum => simp [decodeStringArray] at h
  | jstr s => simp [decodeStringArray] at h
  | jobj => simp [decodeStringArray] at h

/-- On every non-crashing run the genre list of `genresResult` is the one
the total pipeline uses. -/
theorem genresResult_ok_favoriteGenresOf {db : DB} {u : Nat} {gs : List String}
    (h : genresResult db u = .ok gs) : favoriteGenresOf db u = gs := by
  cases hp : db.preferences.find? (fun p => p.userId == u) with
  | none =>
    simp [genresResult, hp] at h
    subst h
    simp [favoriteGenresOf, hp]
  | some p =>
    cases hg : p.favoriteGenres with
    | none =>
      simp [genresResult, hp, hg] at h
      subst h
      simp [favoriteGenresOf, hp, hg]
    | some s =>
      by_cases hse : s == ""
      · simp [genresResult, hp, hg, hse] at h
        subst h
        simp [favoriteGenresOf, hp, hg, hse]
      · cases hj : jsonParse s with
        | none =>
          simp [genresResult, hp, hg, hse, hj] at h
          subst h
          simp [favoriteGenresOf, parseGenresJson, hp, hg, hse, hj]
        | some v =>
          cases v with
          | jnull => simp [genresResult, hp, hg, hse, hj] at h
          | jbool b =>
            simp [genresResult, hp, hg, hse, hj] at h
            subst h
            simp [favoriteGenresOf, parseGenresJson, decodeStringArray,
              hp, hg, hse, hj]
          | jnum =>
            simp [genresResult, hp, hg, hse, hj] at h
            subst h
            simp [favoriteGenresOf, parseGenresJson, decodeStringArray,
              hp, hg, hse, hj]
          | jobj =>
            simp [genresResult, hp, hg, hse, hj] at h
            subst h
            simp [favoriteGenresOf, parseGenresJson, decodeStringArray,
              hp, hg, hse, hj]
          | jstr str =>
            by_cases hlen : str.length == 0
            · simp [genresResult, hp, hg, hse, hj, hlen] at h
              subst h
              simp [favoriteGenresOf, parseGenresJson, decodeStringArray,
                hp, hg, hse, hj]
            · simp [genresResult, hp, hg, hse, hj, hlen] at h
          | jarr xs =>
            by_cases hxe : xs.isEmpty
            · have hxs : xs = [] := by simpa using hxe
              subst hxs
              simp [genresResult, hp, hg, hse, hj] at h
              subst h
              simp [favoriteGenresOf, parseGenresJson, decodeStringArray,
                List.mapM.loop, hp, hg, hse, hj]
            · simp only [List.mapM] at *
              cases hm : List.mapM.loop asString xs [] with
              | none => simp [genresResult, hp, hg, hse, hj, hxe, hm] at h
              | some L =>
                simp [genresResult, hp, hg, hse, hj, hxe, hm] at h
                subst h
                simp [favoriteGenresOf, parseGenresJson, decodeStringArray,
                  hp, hg, hse, hj, hm]

/-- On every non-crashing run the checked discover call returns exactly
the total pipeline's feed. -/
theorem getDiscoverMoviesE_ok {db : DB} {u limit : Nat} {rand : Nat → Nat}
    {gs : List String} (h : genresResult db u = .ok gs) :
    getDiscoverMoviesE db u limit rand
      = Except.ok (getDiscoverMovies db u limit rand) := by
  have hfav := genresResult_ok_favoriteGenresOf h
  subst hfav
  unfold getDiscoverMoviesE
  rw [h]
  rfl

/-- C1: every movie returned by `getDiscoverMovies(u, limit)` has no
`UserMatch` row for `u`; in particular, after a successful
`upsertMatch(u, m, s)` the movie `m` never appears in a subsequent
discover result for `u`. -/
theorem discover_excludes_matched (db : DB) (u limit : Nat) (rand : Nat → Nat) :
    (∀ mv ∈ getDiscoverMovies db u limit rand,
        ¬ ∃ r ∈ db.userMatches, r.userId = u ∧ r.movieId = mv.id) ∧
    (∀ (movieId : Nat) (s : MatchStatus),
        (∃ row, (upsertMatch db u movieId s).2 = Except.ok row) →
        ∀ mv ∈ getDiscoverMovies (upsertMatch db u movieId s).1 u limit rand,
          mv.id ≠ movieId) := by
  constructor
  · intro mv hmv
    have hex := not_excluded_of_mem_base
      (mem_base_of_mem_candidates (mem_candidates_of_mem_discover hmv))
    rintro ⟨r, hr, hru, hrm⟩
    have htrue : excludedForUser db u mv = true := by
      unfold excludedForUser
      exact List.any_eq_true.mpr ⟨r, hr, by simp [hru, hrm]⟩
    rw [htrue] at hex
    cases hex
  · rintro movieId s hok mv hmv heq
    have hex := not_excluded_of_mem_base
      (mem_base_of_mem_candidates (mem_candidates_of_mem_discover hmv))
    obtain ⟨r, hr, hru, hrm⟩ := upsertMatch_ok_has_row db u movieId s hok
    have htrue : excludedForUser (upsertMatch db u movieId s).1 u mv = true := by
      unfold excludedForUser
      exact List.any_eq_true.mpr ⟨r, hr, by simp [hru, hrm, heq]⟩
    rw [htrue] at hex
    cases hex

/-- Witness for C1: in the state after user 7 upserts movie 1 over `dbEx`,
movie 3 is in the discover feed and indeed is not movie 1. -/
theorem discover_excludes_matched_witness :
    (⟨3, ["Action", "Comedy"]⟩ : Movie).id ≠ 1 :=
  (discover_excludes_matched dbEx 7 5 randZero).2 1 MatchStatus.superlike
    ⟨⟨7, 1, MatchStatus.superlike⟩, rfl⟩ ⟨3, ["Action", "Comedy"]⟩ (by decide)

/-- C2: the discover pipeline excludes matched movies, fetches at most
`limit * 2` candidates through the where-clause, returns the
`limit`-prefix of their Fisher-Yates shuffle, and so returns at most
`limit` movies. -/
theorem discover_pipeline (db : DB) (u limit : Nat) (rand : Nat → Nat) :
    getDiscoverMovies db u limit rand
      = (shuffle rand (discoverCandidates db u limit)).take limit ∧
    discoverCandidates db u limit = (discoverBase db u).take (limit * 2) ∧
    (discoverCandidates db u limit).length ≤ 2 * limit ∧
    (∀ mv ∈ getDiscoverMovies db u limit rand, excludedForUser db u mv = false) ∧
    (getDiscoverMovies db u limit rand).length ≤ limit := by
  refine ⟨rfl, rfl, ?_, ?_, ?_⟩
  · calc (discoverCandidates db u limit).length
        ≤ limit * 2 := List.length_take_le _ _
      _ = 2 * limit := Nat.mul_comm _ _
  · intro mv hmv
    exact not_excluded_of_mem_base
      (mem_base_of_mem_candidates (mem_candidates_of_mem_discover hmv))
  · exact List.length_take_le _ _

/-- Witness for C2: movie 1 is in user 7's discover feed over `dbEx` and
has no match row for user 7. -/
theorem discover_pipeline_witness :
    excludedForUser dbEx 7 ⟨1, ["Action"]⟩ = false :=
  (discover_pipeline dbEx 7 5 randZero).2.2.2.1 ⟨1, ["Action"]⟩ (by decide)

/-- C3: when the stored preferences decode to a non-empty favorite-genre
list, the discover call does not throw and every movie it returns has a
category name in that list; when the decoded list is empty (in particular
with no preferences row), the candidates are all not-yet-matched movies,
with no genre filter. -/
theorem discover_genre_filter (db : DB) (u limit : Nat) (rand : Nat → Nat) :
    (∀ (p : UserPreferences) (sjson : String) (L : List String),
        db.preferences.find? (fun q => q.userId == u) = some p →
        p.favoriteGenres = some sjson →
        parseGenresJson sjson = some L → L ≠ [] →
        getDiscoverMoviesE db u limit rand
          = Except.ok (getDiscoverMovies db u limit rand) ∧
        ∀ mv ∈ getDiscoverMovies db u limit rand,
          ∃ c ∈ mv.categories, c ∈ L) ∧
    (favoriteGenresOf db u = [] →
        getDiscoverMovies db u limit rand
          = (shuffle rand ((unmatchedMovies db u).take (limit * 2))).take limit) := by
  constructor
  · intro p sjson L hp hg hL hne
    obtain ⟨v, hv, hdec⟩ := Option.bind_eq_some.mp hL
    obtain ⟨xs, hvx, hmapm⟩ := decodeStringArray_eq_some hdec
    subst hvx
    have hse : (sjson == "") = false := by
      cases hbe : sjson == "" with
      | false => rfl
      | true =>
        exfalso
        have hveq : sjson = "" := by simpa using hbe
        have h0 : jsonParse "" = none := rfl
        rw [hveq, h0] at hv
        cases hv
    have hxe : xs.isEmpty = false := by
      cases xs with
      | nil =>
        exfalso
        have h4 : some ([] : List String) = some L := hmapm
        exact hne (Option.some_inj.mp h4).symm
      | cons a t => rfl
    have hgr : genresResult db u = .ok L := by
      have hmapm2 : List.mapM.loop asString xs [] = some L := by
        simpa [List.mapM] using hmapm
      simp [genresResult, hp, hg, hse, hv, hxe, hmapm2]
    have hfav : favoriteGenresOf db u = L := genresResult_ok_favoriteGenresOf hgr
    refine ⟨getDiscoverMoviesE_ok hgr, ?_⟩
    intro mv hmv
    have hbasemem := mem_base_of_mem_candidates (mem_candidates_of_mem_discover hmv)
    unfold discoverBase at hbasemem
    have h2 := (List.mem_filter.mp hbasemem).2
    rw [hfav] at h2
    simp only [Bool.and_eq_true] at h2
    have h3 := h2.2
    have hie : L.isEmpty = false := by
      cases L with
      | nil => exact absurd rfl hne
      | cons a t => rfl
    rw [hie] at h3
    simp only [Bool.false_or, List.any_eq_true] at h3
    obtain ⟨c, hc, hcc⟩ := h3
    exact ⟨c, hc, by simpa using hcc⟩
  · intro hfav
    exact discover_no_filter db u limit rand hfav

/-- Witness for C3: user 7 of `dbEx` stores the list `["Action"]`; the
call does not throw, and movie 1 of their feed carries `Action`. -/
theorem discover_genre_filter_witness :
    getDiscoverMoviesE dbEx 7 5 randZero
      = Except.ok (getDiscoverMovies dbEx 7 5 randZero) ∧
    ∃ c ∈ (⟨1, ["Action"]⟩ : Movie).categories, c ∈ ["Action"] := by
  have h := (discover_genre_filter dbEx 7 5 randZero).1 ⟨7, some "[\"Action\"]"⟩
    "[\"Action\"]" ["Action"] (by decide) rfl (by decide) (by decide)
  exact ⟨h.1, h.2 ⟨1, ["Action"]⟩ (by decide)⟩

/-- C9: `shuffle` returns a permutation of its input for every stream of
random draws (same length, same multiset; the input list is a value and is
untouched, the function works on the copy `[...items]`); hence the
discover feed is a duplicate-free selection from the fetched candidates. -/
theorem shuffle_is_permutation :
    (∀ (α : Type) (rand : Nat → Nat) (xs : List α),
        List.Perm (shuffle rand xs) xs ∧ (shuffle rand xs).length = xs.length) ∧
    (∀ (db : DB) (u limit : Nat) (rand : Nat → Nat),
        (∀ mv ∈ getDiscoverMovies db u limit rand,
            mv ∈ discoverCandidates db u limit) ∧
        ((discoverCandidates db u limit).Nodup →
            (getDiscoverMovies db u limit rand).Nodup)) := by
  constructor
  · intro α rand xs
    exact ⟨shuffle_perm rand xs, (shuffle_perm rand xs).length_eq⟩
  · intro db u limit rand
    constructor
    · intro mv hmv
      exact mem_candidates_of_mem_discover hmv
    · intro hnd
      have h1 : (shuffle rand (discoverCandidates db u limit)).Nodup :=
        ((shuffle_perm rand (discoverCandidates db u limit)).nodup_iff).mpr hnd
      exact (List.take_sublist limit _).nodup h1

/-- Witness for C9: user 7's discover feed over `dbEx` has no duplicates. -/
theorem shuffle_is_permutation_witness :
    (getDiscoverMovies dbEx 7 2 randZero).Nodup :=
  (shuffle_is_permutation.2 dbEx 7 2 randZero).2 (by decide)

/-- C10: when the stored `favoriteGenres` string is not valid JSON, the
`SyntaxError` from `JSON.parse` is caught: the discover call does not
throw, the genre list is treated as empty, and the feed is computed with
no genre filter over all not-yet-matched movies. -/
theorem malformed_prefs_discover_safe (db : DB) (u limit : Nat)
    (rand : Nat → Nat) (p : UserPreferences) (sjson : String)
    (hp : db.preferences.find? (fun q => q.userId == u) = some p)
    (hg : p.favoriteGenres = some sjson)
    (hbad : jsonParse sjson = none) :
    getDiscoverMoviesE db u limit rand
      = Except.ok
          ((shuffle rand ((unmatchedMovies db u).take (limit * 2))).take limit) ∧
    favoriteGenresOf db u = [] := by
  have hgr : genresResult db u = .ok [] := by
    by_cases hse : sjson == ""
    · simp [genresResult, hp, hg, hse]
    · simp [genresResult, hp, hg, hse, hbad]
  have hfav : favoriteGenresOf db u = [] := genresResult_ok_favoriteGenresOf hgr
  refine ⟨?_, hfav⟩
  rw [getDiscoverMoviesE_ok hgr, discover_no_filter db u limit rand hfav]

/-- Witness for C10: user 7 of `dbBadPrefs` stores the invalid JSON text
`not json`; the call does not throw and yields the unfiltered pipeline. -/
theorem malformed_prefs_discover_safe_witness :
    getDiscoverMoviesE dbBadPrefs 7 3 randZero
      = Except.ok
          ((shuffle randZero ((unmatchedMovies dbBadPrefs 7).take (3 * 2))).take 3) ∧
    favoriteGenresOf dbBadPrefs 7 = [] :=
  malformed_prefs_discover_safe dbBadPrefs 7 3 randZero ⟨7, some "not json"⟩
    "not json" (by decide) rfl rfl

/-- `upsertMatch` preserves the one-row-per-pair invariant. -/
theorem upsert_preserves_unique (db : DB) (u m : Nat) (s : MatchStatus)
    (h : UniqueMatches db) : UniqueMatches (upsertMatch db u m s).1 := by
  unfold UniqueMatches at *
  cases hmov : db.movies.find? (fun mv => mv.id == m) with
  | none => simpa [upsertMatch, hmov] using h
  | some mv0 =>
    cases hmat : db.userMatches.find? (matchKeyIs u m) with
    | some r0 =>
      have hkeys : matchKeys (upsertMatch db u m s).1 = matchKeys db := by
        simp only [upsertMatch, hmov, hmat, matchKeys, List.map_map]
        apply List.map_congr_left
        intro r _
        by_cases hk : matchKeyIs u m r
        · simp [Function.comp, hk]
        · simp [Function.comp, hk]
      rw [hkeys]
      exact h
    | none =>
      have hkeys : matchKeys (upsertMatch db u m s).1 = matchKeys db ++ [(u, m)] := by
        simp [upsertMatch, hmov, hmat, matchKeys]
      rw [hkeys]
      refine List.Nodup.append h (List.nodup_singleton _) ?_
      intro a ha hb
      rw [List.mem_singleton] at hb
      subst hb
      rw [matchKeys, List.mem_map] at ha
      obtain ⟨r, hr, hkey⟩ := ha
      have hnone := List.find?_eq_none.mp hmat r hr
      apply hnone
      have h1 : r.userId = u := congrArg Prod.fst hkey
      have h2 : r.movieId = m := congrArg Prod.snd hkey
      simp [matchKeyIs, h1, h2]

/-- `deleteMatch` preserves the one-row-per-pair invariant. -/
theorem delete_preserves_unique (db : DB) (u m : Nat)
    (h : UniqueMatches db) : UniqueMatches (deleteMatch db u m).1 := by
  unfold UniqueMatches at *
  cases hmat : db.userMatches.find? (matchKeyIs u m) with
  | none => simpa [deleteMatch, hmat] using h
  | some r0 =>
    have hkeys : matchKeys (deleteMatch db u m).1
        = (db.userMatches.filter (fun q => !matchKeyIs u m q)).map
            (fun r => (r.userId, r.movieId)) := by
      simp [deleteMatch, hmat, matchKeys]
    rw [hkeys]
    exact ((List.filter_sublist _).map _).nodup h

/-- C4: every database state reachable by `upsertMatch` / `deleteMatch`
calls from a state satisfying the `userId_movieId` unique constraint still
has at most one match row per (user, movie) pair, and an upsert on a pair
that already has a row only updates it in place (the row count does not
change). -/
theorem one_match_per_pair (init db : DB) (hinit : UniqueMatches init)
    (hr : Reachable init db) :
    UniqueMatches db ∧
    (∀ (u m : Nat) (s : MatchStatus), (getMatchStatus db u m).isSome →
        (upsertMatch db u m s).1.userMatches.length = db.userMatches.length) := by
  have hu : UniqueMatches db := by
    induction hr with
    | refl => exact hinit
    | step _ hstep ih =>
      cases hstep with
      | upsert u' m' s' => exact upsert_preserves_unique _ u' m' s' ih
      | del u' m' => exact delete_preserves_unique _ u' m' ih
  refine ⟨hu, ?_⟩
  intro u m s hsome
  cases hmov : db.movies.find? (fun mv => mv.id == m) with
  | none => simp [upsertMatch, hmov]
  | some mv0 =>
    cases hmat : db.userMatches.find? (matchKeyIs u m) with
    | none =>
      exfalso
      unfold getMatchStatus at hsome
      rw [hmat] at hsome
      cases hsome
    | some r0 => simp [upsertMatch, hmov, hmat]

/-- Witness for C4: starting from the empty match table of `dbEx0`, the
state after one upsert is reachable, keeps the invariant, and a second
upsert of the same pair does not change the row count. -/
theorem one_match_per_pair_witness :
    UniqueMatches (upsertMatch dbEx0 7 1 MatchStatus.like).1 ∧
    (upsertMatch (upsertMatch dbEx0 7 1 MatchStatus.like).1 7 1
        MatchStatus.dislike).1.userMatches.length
      = (upsertMatch dbEx0 7 1 MatchStatus.like).1.userMatches.length := by
  have h := one_match_per_pair dbEx0 (upsertMatch dbEx0 7 1 MatchStatus.like).1
    (by unfold UniqueMatches; decide)
    (Reachable.step Reachable.refl (Step.upsert 7 1 MatchStatus.like dbEx0))
  exact ⟨h.1, h.2 7 1 MatchStatus.dislike (by decide)⟩

/-- C5: when movie `m` exists, after `upsertMatch(u, m, s)` the call
`getMatchStatus(u, m)` returns a match whose status is `s`. -/
theorem created_match_retrievable (db : DB) (u m : Nat) (s : MatchStatus)
    (hmov : ∃ mv ∈ db.movies, mv.id = m) :
    ∃ r, getMatchStatus (upsertMatch db u m s).1 u m = some r ∧ r.status = s := by
  have hfind : (db.movies.find? (fun mv => mv.id == m)).isSome := by
    obtain ⟨mv, hmem, hid⟩ := hmov
    exact List.find?_isSome.mpr ⟨mv, hmem, by simp [hid]⟩
  cases hmovf : db.movies.find? (fun mv => mv.id == m) with
  | none => rw [hmovf] at hfind; cases hfind
  | some mv0 =>
    cases hmat : db.userMatches.find? (matchKeyIs u m) with
    | some r0 =>
      have hkey : matchKeyIs u m r0 = true := List.find?_some hmat
      refine ⟨{ r0 with status := s }, ?_, rfl⟩
      unfold getMatchStatus
      simp only [upsertMatch, hmovf, hmat]
      rw [List.find?_map]
      have hcomp : (matchKeyIs u m ∘ fun r =>
          if matchKeyIs u m r then { r with status := s } else r) = matchKeyIs u m := by
        funext r
        by_cases hk : matchKeyIs u m r
        · have hk2 := hk
          simp only [matchKeyIs, Bool.and_eq_true, beq_iff_eq] at hk2
          simp [Function.comp, hk, matchKeyIs, hk2.1, hk2.2]
        · simp [Function.comp, hk]
      rw [hcomp, hmat]
      simp [hkey]
    | none =>
      refine ⟨⟨u, m, s⟩, ?_, rfl⟩
      unfold getMatchStatus
      simp only [upsertMatch, hmovf, hmat]
      rw [List.find?_append, hmat]
      simp [matchKeyIs]

/-- Witness for C5: movie 3 exists in `dbEx`; after user 7 likes it the
match is retrievable with status `like`. -/
theorem created_match_retrievable_witness :
    ∃ r, getMatchStatus (upsertMatch dbEx 7 3 MatchStatus.like).1 7 3 = some r ∧
      r.status = MatchStatus.like :=
  created_match_retrievable dbEx 7 3 MatchStatus.like (by decide)

/-- C6: after a successful `deleteMatch(u, m)`, `getMatchStatus(u, m)`
returns `null`, and movie `m` is no longer excluded from the user's
discover feed. -/
theorem deleted_match_gone (db : DB) (u m : Nat)
    (hok : ∃ r, (deleteMatch db u m).2 = Except.ok r) :
    getMatchStatus (deleteMatch db u m).1 u m = none ∧
    (∀ mv : Movie, mv.id = m →
        excludedForUser (deleteMatch db u m).1 u mv = false) := by
  cases hmat : db.userMatches.find? (matchKeyIs u m) with
  | none =>
    obtain ⟨r, hr⟩ := hok
    simp [deleteMatch, hmat] at hr
  | some r0 =>
    have hdb : (deleteMatch db u m).1
        = { db with userMatches := db.userMatches.filter (fun q => !matchKeyIs u m q) } := by
      simp [deleteMatch, hmat]
    constructor
    · rw [hdb]
      unfold getMatchStatus
      rw [List.find?_eq_none]
      intro x hx
      have h2 := (List.mem_filter.mp hx).2
      simp only [Bool.not_eq_true'] at h2
      simp [h2]
    · intro mv hmv
      rw [hdb]
      unfold excludedForUser
      rw [List.any_eq_false]
      intro r hr hcontra
      have h2 := (List.mem_filter.mp hr).2
      simp only [Bool.not_eq_true'] at h2
      simp only [Bool.and_eq_true, beq_iff_eq] at hcontra
      have : matchKeyIs u m r = true := by
        simp [matchKeyIs, hcontra.1, hmv ▸ hcontra.2]
      rw [h2] at this
      cases this

/-- Witness for C6: deleting user 7's match on movie 2 of `dbEx` succeeds;
afterwards the match is gone and movie 2 is not excluded. -/
theorem deleted_match_gone_witness :
    getMatchStatus (deleteMatch dbEx 7 2).1 7 2 = none ∧
    excludedForUser (deleteMatch dbEx 7 2).1 7 ⟨2, ["Drama"]⟩ = false :=
  ⟨(deleted_match_gone dbEx 7 2 ⟨⟨7, 2, MatchStatus.like⟩, rfl⟩).1,
   (deleted_match_gone dbEx 7 2 ⟨⟨7, 2, MatchStatus.like⟩, rfl⟩).2
     ⟨2, ["Drama"]⟩ rfl⟩

/-- C7: `upsertMatch` fails with `AppError('Movie not found', 404)` exactly
when movie `m` does not exist, `deleteMatch` fails with
`AppError('Match not found', 404)` exactly when the pair has no match row,
and in either error case the database state is unchanged. -/
theorem errors_carry_http_status (db : DB) (u m : Nat) (s : MatchStatus) :
    ((upsertMatch db u m s).2 = Except.error ⟨"Movie not found", 404⟩ ↔
        ¬ ∃ mv ∈ db.movies, mv.id = m) ∧
    ((deleteMatch db u m).2 = Except.error ⟨"Match not found", 404⟩ ↔
        ¬ ∃ r ∈ db.userMatches, r.userId = u ∧ r.movieId = m) ∧
    (∀ e, (upsertMatch db u m s).2 = Except.error e →
        (upsertMatch db u m s).1 = db) ∧
    (∀ e, (deleteMatch db u m).2 = Except.error e →
        (deleteMatch db u m).1 = db) := by
  refine ⟨?_, ?_, ?_, ?_⟩
  · cases hmov : db.movies.find? (fun mv => mv.id == m) with
    | none =>
      constructor
      · rintro _ ⟨mv, hmem, hid⟩
        have := List.find?_eq_none.mp hmov mv hmem
        simp [hid] at this
      · intro _
        simp [upsertMatch, hmov]
    | some mv0 =>
      have hmem := List.mem_of_find?_eq_some hmov
      have hpred := List.find?_some hmov
      constructor
      · intro habs
        exfalso
        cases hmat : db.userMatches.find? (matchKeyIs u m) with
        | some r0 => simp [upsertMatch, hmov, hmat] at habs
        | none => simp [upsertMatch, hmov, hmat] at habs
      · intro habs
        exact absurd ⟨mv0, hmem, by simpa using hpred⟩ habs
  · cases hmat : db.userMatches.find? (matchKeyIs u m) with
    | none =>
      constructor
      · rintro _ ⟨r, hmem, hru, hrm⟩
        have := List.find?_eq_none.mp hmat r hmem
        simp [matchKeyIs, hru, hrm] at this
      · intro _
        simp [deleteMatch, hmat]
    | some r0 =>
      have hmem := List.mem_of_find?_eq_some hmat
      have hpred : matchKeyIs u m r0 = true := List.find?_some hmat
      constructor
      · intro habs
        simp [deleteMatch, hmat] at habs
      · intro habs
        simp only [matchKeyIs, Bool.and_eq_true, beq_iff_eq] at hpred
        exact absurd ⟨r0, hmem, hpred.1, hpred.2⟩ habs
  · intro e he
    cases hmov : db.movies.find? (fun mv => mv.id == m) with
    | none => simp [upsertMatch, hmov]
    | some mv0 =>
      exfalso
      cases hmat : db.userMatches.find? (matchKeyIs u m) with
      | some r0 => simp [upsertMatch, hmov, hmat] at he
      | none => simp [upsertMatch, hmov, hmat] at he
  · intro e he
    cases hmat : db.userMatches.find? (matchKeyIs u m) with
    | none => simp [deleteMatch, hmat]
    | some r0 =>
      exfalso
      simp [deleteMatch, hmat] at he

/-- Witness for C7: movie 99 does not exist and user 9 has no match on
movie 1, so both calls fail with a 404 `AppError` and leave `dbEx`
untouched. -/
theorem errors_carry_http_status_witness :
    (upsertMatch dbEx 7 99 MatchStatus.like).2
      = Except.error ⟨"Movie not found", 404⟩ ∧
    (upsertMatch dbEx 7 99 MatchStatus.like).1 = dbEx ∧
    (deleteMatch dbEx 9 1).2 = Except.error ⟨"Match not found", 404⟩ ∧
    (deleteMatch dbEx 9 1).1 = dbEx := by
  have h := errors_carry_http_status dbEx 7 99 MatchStatus.like
  have h2 := errors_carry_http_status dbEx 9 1 MatchStatus.like
  exact ⟨h.1.mpr (by decide), h.2.2.1 _ (h.1.mpr (by decide)),
    h2.2.1.mpr (by decide), h2.2.2.2 _ (h2.2.1.mpr (by decide))⟩

/-- Acceptance of `z.string().min(lo).max(hi).optional()`. -/
theorem zMinMax_isSome (lo hi : Nat) (f : JField) :
    (zMinMax lo hi f).isSome ↔
      f = .missing ∨ ∃ s, f = .strv s ∧ lo ≤ s.length ∧ s.length ≤ hi := by
  cases f with
  | missing => simp [zMinMax]
  | nullv => simp [zMinMax]
  | strv s =>
    by_cases h1 : lo ≤ s.length
    · by_cases h2 : s.length ≤ hi
      · simp [zMinMax, h1, h2]
      · simp [zMinMax, h1, h2]
    · simp [zMinMax, h1]

/-- Acceptance of `bio: z.string().max(500).optional().nullable()`. -/
theorem zBio_isSome (f : JField) :
    (zBio f).isSome ↔
      f = .missing ∨ f = .nullv ∨ ∃ s, f = .strv s ∧ s.length ≤ 500 := by
  cases f with
  | missing => simp [zBio]
  | nullv => simp [zBio]
  | strv s =>
    by_cases h : s.length ≤ 500
    · simp [zBio, h]
    · simp [zBio, h]

/-- Acceptance of the URL union: valid URLs, the empty string, or null. -/
theorem zUrlField_isSome (validUrl : String → Bool) (f : JField) :
    (zUrlField validUrl f).isSome ↔
      f = .missing ∨ f = .nullv ∨
        ∃ s, f = .strv s ∧ (validUrl s = true ∨ s = "") := by
  cases f with
  | missing => simp [zUrlField]
  | nullv => simp [zUrlField]
  | strv s =>
    by_cases hv : validUrl s
    · simp [zUrlField, hv]
    · by_cases he : s = ""
      · subst he
        simp [zUrlField, hv]
      · simp [zUrlField, hv, he]

/-- The schema accepts a body iff every field validator accepts it. -/
theorem updateUserSchema_isSome (validUrl : String → Bool) (i : UpdateUserInput) :
    (updateUserSchema validUrl i).isSome ↔
      (zMinMax 3 50 i.username).isSome ∧ (zMinMax 1 50 i.nickname).isSome ∧
      (zBio i.bio).isSome ∧ (zUrlField validUrl i.twitterUrl).isSome ∧
      (zUrlField validUrl i.instagramUrl).isSome := by
  unfold updateUserSchema
  cases zMinMax 3 50 i.username <;>
    cases zMinMax 1 50 i.nickname <;>
      cases zBio i.bio <;>
        cases zUrlField validUrl i.twitterUrl <;>
          cases zUrlField validUrl i.instagramUrl <;>
            simp [zProfilePicture]

/-- A successful parse carries each URL field's validated value. -/
theorem updateUserSchema_url_fields (validUrl : String → Bool)
    (i o : UpdateUserInput) (h : updateUserSchema validUrl i = some o) :
    zUrlField validUrl i.twitterUrl = some o.twitterUrl ∧
    zUrlField validUrl i.instagramUrl = some o.instagramUrl := by
  unfold updateUserSchema at h
  rw [Option.bind_eq_some] at h
  obtain ⟨u, hu, h⟩ := h
  rw [Option.bind_eq_some] at h
  obtain ⟨n, hn, h⟩ := h
  rw [Option.bind_eq_some] at h
  obtain ⟨b, hb, h⟩ := h
  rw [Option.bind_eq_some] at h
  obtain ⟨pp, hpp, h⟩ := h
  rw [Option.bind_eq_some] at h
  obtain ⟨tw, htw, h⟩ := h
  rw [Option.map_eq_some'] at h
  obtain ⟨ig, hig, ho⟩ := h
  subst ho
  exact ⟨htw, hig⟩

/-- C8: `updateUserSchema` accepts a username iff its length is in
`[3, 50]`, a nickname iff in `[1, 50]`, a bio iff at most 500 characters
(null and absent allowed), and each URL field iff it is a valid URL, the
empty string, or null — and a parsed empty-string URL field comes out as
null. -/
theorem updateUserSchema_spec (validUrl : String → Bool)
    (hv : validUrl "" = false) (i : UpdateUserInput) :
    ((updateUserSchema validUrl i).isSome ↔
      (i.username = .missing ∨
        ∃ s, i.username = .strv s ∧ 3 ≤ s.length ∧ s.length ≤ 50) ∧
      (i.nickname = .missing ∨
        ∃ s, i.nickname = .strv s ∧ 1 ≤ s.length ∧ s.length ≤ 50) ∧
      (i.bio = .missing ∨ i.bio = .nullv ∨
        ∃ s, i.bio = .strv s ∧ s.length ≤ 500) ∧
      (i.twitterUrl = .missing ∨ i.twitterUrl = .nullv ∨
        ∃ s, i.twitterUrl = .strv s ∧ (validUrl s = true ∨ s = "")) ∧
      (i.instagramUrl = .missing ∨ i.instagramUrl = .nullv ∨
        ∃ s, i.instagramUrl = .strv s ∧ (validUrl s = true ∨ s = ""))) ∧
    (∀ o, updateUserSchema validUrl i = some o →
      (i.twitterUrl = .strv "" → o.twitterUrl = .nullv) ∧
      (i.instagramUrl = .strv "" → o.instagramUrl = .nullv)) := by
  constructor
  · rw [updateUserSchema_isSome, zMinMax_isSome, zMinMax_isSome, zBio_isSome,
      zUrlField_isSome, zUrlField_isSome]
  · intro o ho
    obtain ⟨htw, hig⟩ := updateUserSchema_url_fields validUrl i o ho
    have hempty : zUrlField validUrl (.strv "") = some .nullv := by
      simp [zUrlField, hv]
    constructor
    · intro hstr
      rw [hstr, hempty] at htw
      exact (Option.some_inj.mp htw).symm
    · intro hstr
      rw [hstr, hempty] at hig
      exact (Option.some_inj.mp hig).symm

/-- Witness for C8: with a URL check rejecting the empty string, the body
`inputEx` is accepted and its empty-string twitterUrl parses to null. -/
theorem updateUserSchema_spec_witness :
    (updateUserSchema urlVEx inputEx).isSome ∧
    (⟨JField.strv "bob", JField.strv "b", JField.nullv, JField.missing,
        JField.nullv, JField.nullv⟩ : UpdateUserInput).twitterUrl
      = JField.nullv := by
  have h := updateUserSchema_spec urlVEx (by decide) inputEx
  refine ⟨h.1.mpr ?_, ?_⟩
  · exact ⟨Or.inr ⟨"bob", rfl, by decide, by decide⟩,
      Or.inr ⟨"b", rfl, by decide, by decide⟩,
      Or.inr (Or.inl rfl),
      Or.inr (Or.inr ⟨"", rfl, Or.inr rfl⟩),
      Or.inr (Or.inl rfl)⟩
  · exact (h.2 _ (by decide)).1 rfl

end FilmMatch
